import Mathlib

/-
Verification of dm-data-attribute-swapper (src/main.py) against its
natural-language specification.

The program operates on a pandas DataFrame loaded from CSV/Excel; we embed
the DataFrame as an ordered association list of named columns (each column an
ordered list of cell values), which matches every DataFrame operation the
source uses: column membership (`col in df.columns`), column read (`df[c]`),
column assignment (`df[c] = series` replaces an existing column in place or
appends a new one at the end), and `df.drop(columns=[c])`.

The pandas shuffle `df[col2].sample(frac=1, random_state=s).reset_index(drop=True)`
is a permutation of the column's values determined by the integer seed `s`;
we abstract it as a parameter `shuffle : Nat -> List a -> List a`, constrained
where a claim needs it to produce a permutation. The seed for each processed
pair comes from `random.randint(0, 1000)`; we model the stream of drawn seeds
as a list consumed one element per processed pair.
-/

namespace DataAttributeSwapper

/-- Severity levels of the Python logging module, as used by main.py. -/
inductive LogLevel where
  | debug
  | info
  | warning
  | error
  | critical
deriving DecidableEq, Repr

/-- A single emitted log record: severity level and message text. -/
structure LogMsg where
  level : LogLevel
  msg : String
deriving DecidableEq, Repr

/-- The in-memory table: an ordered sequence of named columns, each an ordered
list of cell values (embedding of the pandas DataFrame as used by main.py). -/
abbrev Table (α : Type) := List (String × List α)

variable {α : Type}

/-- Read a column by name (embeds `df[c]` / membership in `df.columns`). -/
def getCol (df : Table α) (n : String) : Option (List α) :=
  match df with
  | [] => none
  | (m, v) :: rest => if m = n then some v else getCol rest n

/-- Column membership test (embeds `c in df.columns`). -/
def hasCol (df : Table α) (n : String) : Bool :=
  (getCol df n).isSome

/-- Read a column by name, defaulting to the empty column when absent. -/
def getColD (df : Table α) (n : String) : List α :=
  (getCol df n).getD []

/-- Column assignment (embeds `df[c] = series`): replaces the column in place
when the name exists, otherwise appends a new column at the end. -/
def setCol (df : Table α) (n : String) (v : List α) : Table α :=
  match df with
  | [] => [(n, v)]
  | (m, w) :: rest => if m = n then (n, v) :: rest else (m, w) :: setCol rest n v

/-- Column removal (embeds `df.drop(columns=[c], inplace=True)`). -/
def dropCol (df : Table α) (n : String) : Table α :=
  match df with
  | [] => []
  | (m, w) :: rest => if m = n then dropCol rest n else (m, w) :: dropCol rest n

/-- The scratch column name used by swap_data: the f-string `temp_{col2}`. -/
def tempName (c : String) : String :=
  "temp_" ++ c

/-- The error message swap_data logs when a pair names an absent column
(main.py line 66). -/
def missingMsg (c1 c2 : String) : String :=
  "Column(s) " ++ c1 ++ " or " ++ c2 ++ " not found in the DataFrame."

/-- The info message swap_data logs after processing a pair (main.py line 80). -/
def swappedMsg (c1 c2 : String) : String :=
  "Swapped data between columns " ++ c1 ++ " and " ++ c2 ++ "."

/-- The running state of swap_data: the mutated table, the stream of seeds
still to be drawn by `random.randint(0, 1000)` (one per processed pair), and
the log records emitted so far. -/
structure SwapState (α : Type) where
  df : Table α
  seeds : List Nat
  logs : List LogMsg
deriving DecidableEq, Repr

/-- One iteration of the loop body of swap_data (main.py lines 64-80) on the
pair `p = (col1, col2)`:
if either column is absent, log an error and skip (`continue`); otherwise
create the scratch column `temp_col2` holding the shuffled values of col2,
copy col1 into col2, copy the scratch column into col1, and drop the scratch
column. -/
def swap_step (shuffle : Nat → List α → List α) (st : SwapState α)
    (p : String × String) : SwapState α :=
  if !hasCol st.df p.1 || !hasCol st.df p.2 then
    { st with logs := st.logs ++ [⟨LogLevel.error, missingMsg p.1 p.2⟩] }
  else
    let temp := tempName p.2
    let df1 := setCol st.df temp (shuffle (st.seeds.headD 0) (getColD st.df p.2))
    let df2 := setCol df1 p.2 (getColD df1 p.1)
    let df3 := setCol df2 p.1 (getColD df2 temp)
    let df4 := dropCol df3 temp
    { df := df4, seeds := st.seeds.tail
      logs := st.logs ++ [⟨LogLevel.info, swappedMsg p.1 p.2⟩] }

/-- The loop of swap_data as a left fold over the configured pairs. -/
def swap_data_aux (shuffle : Nat → List α → List α)
    (pairs : List (String × String)) (st : SwapState α) : SwapState α :=
  pairs.foldl (swap_step shuffle) st

/-- swap_data (main.py lines 53-82): fold the loop body over the configured
pairs, starting from the loaded table, and return the resulting table. -/
def swap_data (shuffle : Nat → List α → List α) (df : Table α)
    (seeds : List Nat) (pairs : List (String × String)) : Table α :=
  (swap_data_aux shuffle pairs ⟨df, seeds, []⟩).df

/-- A concrete shuffle instance used in counterexamples and witnesses: every
seed reverses the column (reversal is one of the N! orderings the sampler can
produce, hence an achievable random draw). -/
def shufRev : Nat → List Nat → List Nat :=
  fun _ l => l.reverse

example : swap_data shufRev [("A", [1, 2]), ("B", [3, 4])] [0] [("A", "B")] =
    [("A", [4, 3]), ("B", [1, 2])] := by decide

example : swap_data shufRev [("temp_B", [1, 2]), ("B", [3, 4])] [0]
    [("temp_B", "B")] = [("B", [4, 3])] := by decide

/-- Reading back the column just assigned yields the assigned values, whether
the name already existed (in-place replacement) or not (append at the end). -/
theorem getCol_setCol_self (df : Table α) (n : String) (v : List α) :
    getCol (setCol df n v) n = some v := by
  induction df with
  | nil => simp [setCol, getCol]
  | cons c rest ih =>
    obtain ⟨m, w⟩ := c
    by_cases h : m = n <;> simp [setCol, getCol, h, ih]

/-- Assigning one column leaves every other column unchanged. -/
theorem getCol_setCol_ne (df : Table α) (n m : String) (v : List α)
    (h : m ≠ n) : getCol (setCol df n v) m = getCol df m := by
  induction df with
  | nil => simp [setCol, getCol, Ne.symm h]
  | cons c rest ih =>
    obtain ⟨k, w⟩ := c
    by_cases hk : k = n
    · subst hk
      simp [setCol, getCol, Ne.symm h, ih]
    · by_cases hm : k = m
      · subst hm
        simp [setCol, getCol, hk]
      · simp [setCol, getCol, hk, hm, ih]

/-- Dropping one column leaves every other column unchanged. -/
theorem getCol_dropCol_ne (df : Table α) (n m : String) (h : m ≠ n) :
    getCol (dropCol df n) m = getCol df m := by
  induction df with
  | nil => simp [dropCol]
  | cons c rest ih =>
    obtain ⟨k, w⟩ := c
    by_cases hk : k = n
    · subst hk
      simp [dropCol, getCol, Ne.symm h, ih]
    · by_cases hm : k = m
      · subst hm
        simp [dropCol, getCol, hk]
      · simp [dropCol, getCol, hk, hm, ih]

/-- The dropped column is gone. -/
theorem getCol_dropCol_self (df : Table α) (n : String) :
    getCol (dropCol df n) n = none := by
  induction df with
  | nil => simp [dropCol, getCol]
  | cons c rest ih =>
    obtain ⟨k, w⟩ := c
    by_cases hk : k = n <;> simp [dropCol, getCol, hk, ih]

/-- The scratch name is never equal to the column it is derived from. -/
theorem tempName_ne (c : String) : tempName c ≠ c := by
  intro h
  have hlen := congrArg String.length h
  rw [tempName, String.length_append] at hlen
  have h5 : ("temp_" : String).length = 5 := rfl
  omega

/-- A column found by name is an entry of the table. -/
theorem getCol_mem (df : Table α) (n : String) (v : List α)
    (h : getCol df n = some v) : (n, v) ∈ df := by
  induction df with
  | nil => simp [getCol] at h
  | cons c rest ih =>
    obtain ⟨m, w⟩ := c
    by_cases hm : m = n
    · subst hm
      simp [getCol] at h
      simp [h]
    · simp [getCol, hm] at h
      exact List.mem_cons_of_mem _ (ih h)

/-- Every entry of the table after an assignment is either the assigned
column or an entry of the original table. -/
theorem mem_setCol (df : Table α) (n : String) (v : List α)
    (c : String × List α) (h : c ∈ setCol df n v) : c = (n, v) ∨ c ∈ df := by
  induction df with
  | nil =>
    simp [setCol] at h
    exact Or.inl h
  | cons d rest ih =>
    obtain ⟨m, w⟩ := d
    by_cases hm : m = n
    · subst hm
      simp [setCol] at h
      rcases h with h | h
      · exact Or.inl h
      · exact Or.inr (List.mem_cons_of_mem _ h)
    · simp [setCol, hm] at h
      rcases h with h | h
      · exact Or.inr (by simp [h])
      · rcases ih h with h | h
        · exact Or.inl h
        · exact Or.inr (List.mem_cons_of_mem _ h)

/-- Every entry of the table after a drop is an entry of the original table. -/
theorem mem_dropCol (df : Table α) (n : String) (c : String × List α)
    (h : c ∈ dropCol df n) : c ∈ df := by
  induction df with
  | nil => simp [dropCol] at h
  | cons d rest ih =>
    obtain ⟨m, w⟩ := d
    by_cases hm : m = n
    · subst hm
      simp [dropCol] at h
      exact List.mem_cons_of_mem _ (ih h)
    · simp [dropCol, hm] at h
      rcases h with h | h
      · simp [h]
      · exact List.mem_cons_of_mem _ (ih h)

/-- Assignment preserves the presence of every column name. -/
theorem hasCol_setCol (df : Table α) (n m : String) (v : List α)
    (h : hasCol df m = true) : hasCol (setCol df n v) m = true := by
  by_cases hm : m = n
  · subst hm
    simp [hasCol, getCol_setCol_self]
  · simpa [hasCol, getCol_setCol_ne df n m v hm] using h

/-- When either named column is absent, the loop body only appends the error
log record: table and remaining seed stream are untouched. -/
theorem swap_step_skip (shuffle : Nat → List α → List α) (st : SwapState α)
    (p : String × String)
    (h : hasCol st.df p.1 = false ∨ hasCol st.df p.2 = false) :
    swap_step shuffle st p =
      { st with logs := st.logs ++ [⟨LogLevel.error, missingMsg p.1 p.2⟩] } := by
  rcases h with h | h <;> simp [swap_step, h]

/-- When both named columns are present, the loop body runs the swap. -/
theorem swap_step_processed (shuffle : Nat → List α → List α)
    (st : SwapState α) (p : String × String)
    (h1 : hasCol st.df p.1 = true) (h2 : hasCol st.df p.2 = true) :
    swap_step shuffle st p =
      { df := dropCol
          (setCol
            (setCol
              (setCol st.df (tempName p.2)
                (shuffle (st.seeds.headD 0) (getColD st.df p.2)))
              p.2
              (getColD
                (setCol st.df (tempName p.2)
                  (shuffle (st.seeds.headD 0) (getColD st.df p.2))) p.1))
            p.1
            (getColD
              (setCol
                (setCol st.df (tempName p.2)
                  (shuffle (st.seeds.headD 0) (getColD st.df p.2)))
                p.2
                (getColD
                  (setCol st.df (tempName p.2)
                    (shuffle (st.seeds.headD 0) (getColD st.df p.2))) p.1))
              (tempName p.2)))
          (tempName p.2)
        seeds := st.seeds.tail
        logs := st.logs ++ [⟨LogLevel.info, swappedMsg p.1 p.2⟩] } := by
  simp [swap_step, h1, h2]

/-- A column whose name differs from both members of the pair and from the
pair's scratch name passes through one loop iteration unchanged. -/
theorem swap_step_frame (shuffle : Nat → List α → List α) (st : SwapState α)
    (p : String × String) (c : String)
    (h1 : c ≠ p.1) (h2 : c ≠ p.2) (h3 : c ≠ tempName p.2) :
    getCol (swap_step shuffle st p).df c = getCol st.df c := by
  by_cases hA : hasCol st.df p.1 = true
  · by_cases hB : hasCol st.df p.2 = true
    · rw [swap_step_processed shuffle st p hA hB]
      dsimp only
      rw [getCol_dropCol_ne _ (tempName p.2) c h3,
        getCol_setCol_ne _ p.1 c _ h1, getCol_setCol_ne _ p.2 c _ h2,
        getCol_setCol_ne _ (tempName p.2) c _ h3]
    · rw [swap_step_skip shuffle st p (Or.inr (by simpa using hB))]
  · rw [swap_step_skip shuffle st p (Or.inl (by simpa using hA))]

/-- Effect of one processed loop iteration on the two named columns, when the
pair is non-degenerate (distinct names, first name not equal to the scratch
name): the second column ends up holding the first column's previous values
unpermuted, and the first column ends up holding the shuffled previous values
of the second column. -/
theorem swap_step_run (shuffle : Nat → List α → List α) (st : SwapState α)
    (a b : String) (ha : hasCol st.df a = true) (hb : hasCol st.df b = true)
    (hab : a ≠ b) (hat : a ≠ tempName b) :
    getCol (swap_step shuffle st (a, b)).df b = getCol st.df a ∧
    getCol (swap_step shuffle st (a, b)).df a =
      some (shuffle (st.seeds.headD 0) (getColD st.df b)) := by
  have htb : b ≠ tempName b := fun h => tempName_ne b h.symm
  obtain ⟨la, hla⟩ := Option.isSome_iff_exists.mp ha
  rw [swap_step_processed shuffle st (a, b) ha hb]
  dsimp only
  constructor
  · rw [getCol_dropCol_ne _ (tempName b) b htb,
      getCol_setCol_ne _ a b _ (Ne.symm hab), getCol_setCol_self]
    simp only [getColD]
    rw [getCol_setCol_ne _ (tempName b) a _ hat, hla]
    rfl
  · rw [getCol_dropCol_ne _ (tempName b) a hat, getCol_setCol_self]
    simp only [getColD]
    rw [getCol_setCol_ne _ b (tempName b) _ (tempName_ne b),
      getCol_setCol_self]
    rfl

/-- A column whose name avoids both members and the scratch name of every
configured pair passes through the whole loop unchanged. -/
theorem swap_data_aux_frame (shuffle : Nat → List α → List α)
    (pairs : List (String × String)) :
    ∀ (st : SwapState α) (c : String),
      (∀ p ∈ pairs, c ≠ p.1 ∧ c ≠ p.2 ∧ c ≠ tempName p.2) →
      getCol (swap_data_aux shuffle pairs st).df c = getCol st.df c := by
  induction pairs with
  | nil => intro st c h; rfl
  | cons p ps ih =>
    intro st c h
    have hstep : swap_data_aux shuffle (p :: ps) st =
        swap_data_aux shuffle ps (swap_step shuffle st p) := rfl
    rw [hstep, ih _ c fun q hq => h q (List.mem_cons_of_mem _ hq)]
    exact swap_step_frame shuffle st p c (h p (List.mem_cons_self p ps)).1
      (h p (List.mem_cons_self p ps)).2.1 (h p (List.mem_cons_self p ps)).2.2

/-- A present column of a table whose columns all have length n has length n. -/
theorem getColD_len (df : Table α) (n : Nat) (c : String)
    (h : ∀ col ∈ df, col.2.length = n) (hc : hasCol df c = true) :
    (getColD df c).length = n := by
  obtain ⟨v, hv⟩ := Option.isSome_iff_exists.mp hc
  rw [getColD, hv]
  exact h (c, v) (getCol_mem df c v hv)

/-- Assigning a length-n column preserves the all-columns-length-n invariant. -/
theorem setCol_len (df : Table α) (n : Nat) (m : String) (v : List α)
    (h : ∀ col ∈ df, col.2.length = n) (hv : v.length = n) :
    ∀ col ∈ setCol df m v, col.2.length = n := by
  intro col hcol
  rcases mem_setCol df m v col hcol with h1 | h1
  · rw [h1]; exact hv
  · exact h col h1

/-- Dropping a column preserves the all-columns-length-n invariant. -/
theorem dropCol_len (df : Table α) (n : Nat) (m : String)
    (h : ∀ col ∈ df, col.2.length = n) :
    ∀ col ∈ dropCol df m, col.2.length = n :=
  fun col hcol => h col (mem_dropCol df m col hcol)

/-- One loop iteration preserves the all-columns-length-n invariant, provided
the shuffle is length-preserving (pandas sample(frac=1) returns all rows). -/
theorem swap_step_len (shuffle : Nat → List α → List α)
    (hlen : ∀ k (l : List α), (shuffle k l).length = l.length)
    (st : SwapState α) (p : String × String) (n : Nat)
    (h : ∀ col ∈ st.df, col.2.length = n) :
    ∀ col ∈ (swap_step shuffle st p).df, col.2.length = n := by
  by_cases hA : hasCol st.df p.1 = true
  · by_cases hB : hasCol st.df p.2 = true
    · rw [swap_step_processed shuffle st p hA hB]
      dsimp only
      have h1 : ∀ col ∈ setCol st.df (tempName p.2)
          (shuffle (st.seeds.headD 0) (getColD st.df p.2)), col.2.length = n :=
        setCol_len _ n _ _ h ((hlen _ _).trans (getColD_len _ n _ h hB))
      have h2 : ∀ col ∈ setCol
          (setCol st.df (tempName p.2)
            (shuffle (st.seeds.headD 0) (getColD st.df p.2))) p.2
          (getColD (setCol st.df (tempName p.2)
            (shuffle (st.seeds.headD 0) (getColD st.df p.2))) p.1),
          col.2.length = n :=
        setCol_len _ n _ _ h1 (getColD_len _ n _ h1 (hasCol_setCol _ _ _ _ hA))
      have htempPresent : hasCol (setCol st.df (tempName p.2)
          (shuffle (st.seeds.headD 0) (getColD st.df p.2))) (tempName p.2) = true := by
        simp [hasCol, getCol_setCol_self]
      have h3 : ∀ col ∈ setCol
          (setCol (setCol st.df (tempName p.2)
              (shuffle (st.seeds.headD 0) (getColD st.df p.2))) p.2
            (getColD (setCol st.df (tempName p.2)
              (shuffle (st.seeds.headD 0) (getColD st.df p.2))) p.1)) p.1
          (getColD (setCol (setCol st.df (tempName p.2)
              (shuffle (st.seeds.headD 0) (getColD st.df p.2))) p.2
            (getColD (setCol st.df (tempName p.2)
              (shuffle (st.seeds.headD 0) (getColD st.df p.2))) p.1)) (tempName p.2)),
          col.2.length = n :=
        setCol_len _ n _ _ h2
          (getColD_len _ n _ h2 (hasCol_setCol _ _ _ _ htempPresent))
      exact dropCol_len _ n _ h3
    · rw [swap_step_skip shuffle st p (Or.inr (by simpa using hB))]
      exact h
  · rw [swap_step_skip shuffle st p (Or.inl (by simpa using hA))]
    exact h

/-- The whole loop preserves the all-columns-length-n invariant. -/
theorem swap_data_aux_len (shuffle : Nat → List α → List α)
    (hlen : ∀ k (l : List α), (shuffle k l).length = l.length)
    (pairs : List (String × String)) :
    ∀ (st : SwapState α) (n : Nat),
      (∀ col ∈ st.df, col.2.length = n) →
      ∀ col ∈ (swap_data_aux shuffle pairs st).df, col.2.length = n := by
  induction pairs with
  | nil => intro st n h; exact h
  | cons p ps ih =>
    intro st n h
    have hstep : swap_data_aux shuffle (p :: ps) st =
        swap_data_aux shuffle ps (swap_step shuffle st p) := rfl
    rw [hstep]
    exact ih _ n (swap_step_len shuffle hlen st p n h)

/-- Running swap_data on a single pair is one loop iteration. -/
theorem swap_data_one (shuffle : Nat → List α → List α) (df : Table α)
    (seeds : List Nat) (p : String × String) :
    swap_data shuffle df seeds [p] =
      (swap_step shuffle ⟨df, seeds, []⟩ p).df := rfl

/-- A table containing a column whose name is the scratch name of another. -/
def tTempB : Table Nat := [("temp_B", [1, 2]), ("B", [3, 4])]

/-- A plain two-column table. -/
def tAB : Table Nat := [("A", [1, 2]), ("B", [3, 4])]

/-- C1: the claim quantifies over every pair whose two columns exist, but when
colA is itself the scratch name `temp_` ++ colB, the scratch assignment
clobbers colA before it is copied into colB: with colA = "temp_B",
colB = "B" (both present, distinct), the resulting colB holds a shuffle of
colB's own old values, not the original values of colA. The shuffle used
reverses the column, an achievable random draw. -/
theorem C1_counterexample :
    hasCol tTempB "temp_B" = true ∧ hasCol tTempB "B" = true ∧
    (shufRev 0 [3, 4]).Perm [3, 4] ∧
    getCol (swap_data shufRev tTempB [0] [("temp_B", "B")]) "B" ≠
      getCol tTempB "temp_B" := by decide

/-- C1 (amended): for every pair (colA, colB) processed by swap_data where
both columns exist, the names are distinct, and colA is not the scratch name
`temp_` ++ colB, the resulting table has colB equal to the original,
unpermuted values of colA, and colA equal to a permutation of the original
values of colB. -/
theorem C1_swap_asymmetry (shuffle : Nat → List α → List α)
    (hshuf : ∀ k (l : List α), (shuffle k l).Perm l)
    (df : Table α) (seeds : List Nat) (a b : String)
    (ha : hasCol df a = true) (hb : hasCol df b = true)
    (hab : a ≠ b) (hat : a ≠ tempName b) :
    getCol (swap_data shuffle df seeds [(a, b)]) b = getCol df a ∧
    (getColD (swap_data shuffle df seeds [(a, b)]) a).Perm (getColD df b) := by
  have hrun := swap_step_run shuffle ⟨df, seeds, []⟩ a b ha hb hab hat
  rw [swap_data_one]
  refine ⟨hrun.1, ?_⟩
  rw [getColD, hrun.2]
  exact hshuf _ _

/-- Witness instantiating C1_swap_asymmetry on a concrete table, pair and
(reversing) shuffle. -/
theorem C1_swap_asymmetry_witness :
    getCol (swap_data shufRev tAB [5] [("A", "B")]) "B" = getCol tAB "A" ∧
    (getColD (swap_data shufRev tAB [5] [("A", "B")]) "A").Perm
      (getColD tAB "B") :=
  C1_swap_asymmetry shufRev (fun _ l => l.reverse_perm) tAB [5] "A" "B"
    (by decide) (by decide) (by decide) (by decide)

/-- C2: the claim asserts per-column multiset preservation, but swap_data
copies colA's values into colB, so colB's output multiset equals colA's input
multiset, which differs from colB's own input multiset on this table: both
columns exist, the draw is a genuine permutation (reversal), yet output colB
is not a permutation of input colB. -/
theorem C2_counterexample :
    hasCol tAB "A" = true ∧ hasCol tAB "B" = true ∧
    (shufRev 0 [3, 4]).Perm [3, 4] ∧
    ¬ (getColD (swap_data shufRev tAB [0] [("A", "B")]) "B").Perm
      (getColD tAB "B") := by decide

/-- C2 (amended): for a processed non-degenerate pair (colA, colB), the
multiset of values is preserved jointly across the pair: the concatenation of
the output colA and colB columns is a permutation of the concatenation of the
input colA and colB columns (individually, output colB is a copy of input
colA and output colA a permutation of input colB, as proved for claim C1). -/
theorem C2_joint_multiset (shuffle : Nat → List α → List α)
    (hshuf : ∀ k (l : List α), (shuffle k l).Perm l)
    (df : Table α) (seeds : List Nat) (a b : String)
    (ha : hasCol df a = true) (hb : hasCol df b = true)
    (hab : a ≠ b) (hat : a ≠ tempName b) :
    (getColD (swap_data shuffle df seeds [(a, b)]) a ++
      getColD (swap_data shuffle df seeds [(a, b)]) b).Perm
      (getColD df a ++ getColD df b) := by
  have hrun := swap_step_run shuffle ⟨df, seeds, []⟩ a b ha hb hab hat
  rw [swap_data_one]
  have h1 : getColD (swap_step shuffle ⟨df, seeds, []⟩ (a, b)).df b =
      getColD df a := by
    rw [getColD, hrun.1]; rfl
  have h2 : getColD (swap_step shuffle ⟨df, seeds, []⟩ (a, b)).df a =
      shuffle (seeds.headD 0) (getColD df b) := by
    rw [getColD, hrun.2]; rfl
  rw [h1, h2]
  have hperm1 : (shuffle (seeds.headD 0) (getColD df b) ++ getColD df a).Perm
      (getColD df b ++ getColD df a) := (hshuf _ _).append_right _
  exact hperm1.trans List.perm_append_comm

/-- Witness instantiating C2_joint_multiset on a concrete table, pair and
(reversing) shuffle. -/
theorem C2_joint_multiset_witness :
    (getColD (swap_data shufRev tAB [7] [("A", "B")]) "A" ++
      getColD (swap_data shufRev tAB [7] [("A", "B")]) "B").Perm
      (getColD tAB "A" ++ getColD tAB "B") :=
  C2_joint_multiset shufRev (fun _ l => l.reverse_perm) tAB [7] "A" "B"
    (by decide) (by decide) (by decide) (by decide)

/-- A three-column table with nontrivial data in each column. -/
def t3 : Table Nat := [("A", [1, 2]), ("B", [3, 4]), ("C", [5, 6])]

/-- A one-column table. -/
def tA : Table Nat := [("A", [1, 2])]

/-- A table in which a pre-existing column bears the scratch name of the
configured pair. -/
def tABtemp : Table Nat := [("A", [1, 2]), ("B", [3, 4]), ("temp_B", [5, 6])]

/-- C4: pairs are processed as a left-to-right fold, so running the pair list
p :: ps equals running ps on the result of running [p] (a later pair sees the
already-swapped values); and on overlapping pairs (A,B),(B,C) over a concrete
table the two processing orders give different tables. -/
theorem C4_sequential_fold :
    (∀ (β : Type) (shuffle : Nat → List β → List β) (st : SwapState β)
        (p : String × String) (ps : List (String × String)),
      swap_data_aux shuffle (p :: ps) st =
        swap_data_aux shuffle ps (swap_data_aux shuffle [p] st)) ∧
    swap_data shufRev t3 [0, 0] [("A", "B"), ("B", "C")] ≠
      swap_data shufRev t3 [0, 0] [("B", "C"), ("A", "B")] := by
  refine ⟨fun β shuffle st p ps => rfl, by decide⟩

/-- C5: the claim says the diagnostic for a pair naming an absent column is
warning-level, but swap_data calls logging.error: on a concrete run whose
pair names the absent column "Z", the only emitted record is error-level. -/
theorem C5_counterexample :
    hasCol tA "Z" = false ∧
    (swap_data_aux shufRev [("A", "Z")] ⟨tA, [0], []⟩).logs =
      [⟨LogLevel.error, missingMsg "A" "Z"⟩] ∧
    LogLevel.error ≠ LogLevel.warning := by decide

/-- C5 (amended): if either column name of a pair is absent from the table's
current column set, swap_data skips that pair leaving the table (hence both
named columns, any that exist) and the seed stream unchanged, emits an
error-level diagnostic naming both columns of the pair, and continues with
the remaining pairs. -/
theorem C5_skip_logs_error (shuffle : Nat → List α → List α)
    (st : SwapState α) (p : String × String) (rest : List (String × String))
    (h : hasCol st.df p.1 = false ∨ hasCol st.df p.2 = false) :
    swap_data_aux shuffle (p :: rest) st =
      swap_data_aux shuffle rest
        { st with logs := st.logs ++ [⟨LogLevel.error, missingMsg p.1 p.2⟩] } := by
  have hstep : swap_data_aux shuffle (p :: rest) st =
      swap_data_aux shuffle rest (swap_step shuffle st p) := rfl
  rw [hstep, swap_step_skip shuffle st p h]

/-- Witness instantiating C5_skip_logs_error on a concrete state and pair
whose second column is absent. -/
theorem C5_skip_logs_error_witness :
    swap_data_aux shufRev [("A", "Z")] ⟨tA, [3], []⟩ =
      swap_data_aux shufRev []
        ⟨tA, [3], [⟨LogLevel.error, missingMsg "A" "Z"⟩]⟩ :=
  C5_skip_logs_error shufRev ⟨tA, [3], []⟩ ("A", "Z") [] (Or.inr (by decide))

/-- C6: the claim says every column not named in any pair survives unchanged,
but a pre-existing column bearing the scratch name of a processed pair is
clobbered and then dropped: "temp_Y" is named in no pair, exists in the input,
and is absent from the output. -/
theorem C6_counterexample :
    ("temp_Y" ≠ "X" ∧ "temp_Y" ≠ "Y") ∧
    hasCol [("X", [7, 8]), ("Y", [9, 10]), ("temp_Y", [11, 12])] "temp_Y" = true ∧
    hasCol (swap_data shufRev
      [("X", [7, 8]), ("Y", [9, 10]), ("temp_Y", [11, 12])] [0]
      [("X", "Y")]) "temp_Y" = false := by decide

/-- C6 (amended): every column whose name is neither a member of any
configured pair nor the scratch name `temp_` ++ colB of any configured pair
is identical in input and output: same values, same row order, still present
(its lookup result is unchanged). -/
theorem C6_untouched_frame (shuffle : Nat → List α → List α) (df : Table α)
    (seeds : List Nat) (pairs : List (String × String)) (c : String)
    (h : ∀ p ∈ pairs, c ≠ p.1 ∧ c ≠ p.2 ∧ c ≠ tempName p.2) :
    getCol (swap_data shuffle df seeds pairs) c = getCol df c :=
  swap_data_aux_frame shuffle pairs ⟨df, seeds, []⟩ c h

/-- Witness instantiating C6_untouched_frame: column "C" of a concrete table
is untouched by the pair (A, B). -/
theorem C6_untouched_frame_witness :
    getCol (swap_data shufRev t3 [0] [("A", "B")]) "C" = getCol t3 "C" :=
  C6_untouched_frame shufRev t3 [0] [("A", "B")] "C" (by decide)

/-- C7: the row count of the table is never changed by swap_data: if every
input column has length n and the shuffle is length-preserving (pandas
sample(frac=1) returns all rows), every output column has length n, for any
seed stream and any configured pair list. -/
theorem C7_row_count_invariant (shuffle : Nat → List α → List α)
    (hlen : ∀ k (l : List α), (shuffle k l).length = l.length)
    (df : Table α) (seeds : List Nat) (pairs : List (String × String))
    (n : Nat) (h : ∀ col ∈ df, col.2.length = n) :
    ∀ col ∈ swap_data shuffle df seeds pairs, col.2.length = n :=
  swap_data_aux_len shuffle hlen pairs ⟨df, seeds, []⟩ n h

/-- Witness instantiating C7_row_count_invariant on a concrete table, an
overlapping pair list, and a concrete column of the output. -/
theorem C7_row_count_invariant_witness :
    (("A", [4, 3]) : String × List Nat) ∈
        swap_data shufRev t3 [0, 0] [("A", "B"), ("B", "C")] ∧
    ([4, 3] : List Nat).length = 2 :=
  ⟨by decide,
    C7_row_count_invariant shufRev (fun _ l => l.length_reverse) t3 [0, 0]
      [("A", "B"), ("B", "C")] 2 (by decide) ("A", [4, 3]) (by decide)⟩

/-- C10: on a concrete input table that already contains a column literally
named `temp_` ++ colB for the processed pair (colA, colB) — here "temp_B" for
the pair (A, B) — that column is named in no pair, exists in the input, and
is absent from swap_data's output (it was overwritten by the shuffled scratch
values and then dropped together with the scratch column). -/
theorem C10_temp_collision_drops_column :
    hasCol tABtemp "temp_B" = true ∧
    ("temp_B" ≠ "A" ∧ "temp_B" ≠ "B") ∧
    hasCol (swap_data shufRev tABtemp [4] [("A", "B")]) "temp_B" = false := by
  decide

/-- The upper bound of the per-pair seed draw `random.randint(0, 1000)` in
swap_data (main.py line 71): each processed pair shuffles with a seed from
{0, ..., seedHi}, i.e. one of at most seedHi + 1 = 1001 values. -/
def seedHi : Nat := 1000

/-- The reachability property that a uniform distribution over all N!
orderings requires of the seeded sampler: every ordering of the row indices
0..n-1 (every permutation of List.range n) is produced at some seed in the
range drawn by random.randint(0, seedHi). Here `sample s l` stands for the
value-level effect of `l.sample(frac=1, random_state=s).reset_index(drop=True)`
for a seed s; the sampler itself is left abstract, the argument below holds
for every possible sampler. -/
def reachesAllOrderings (sample : Nat → List Nat → List Nat) (n : Nat) : Prop :=
  ∀ l : List Nat, l.Perm (List.range n) →
    ∃ s, s ≤ seedHi ∧ sample s (List.range n) = l

/-- At most seedHi + 1 = 1001 orderings are reachable from the seed range,
but a 7-row table has 7! = 5040 orderings, so no sampler reaches them all. -/
theorem not_reachesAllOrderings_seven (sample : Nat → List Nat → List Nat) :
    ¬ reachesAllOrderings sample 7 := by
  intro hreach
  have hnodup : (List.range 7).permutations.Nodup :=
    List.nodup_permutations _ (List.nodup_range 7)
  set P : Finset (List Nat) :=
    ⟨((List.range 7).permutations : Multiset (List Nat)),
      Multiset.coe_nodup.mpr hnodup⟩ with hPdef
  have hsub : P ⊆ (Finset.range (seedHi + 1)).image
      fun s => sample s (List.range 7) := by
    intro l hl
    have hmem : l ∈ (List.range 7).permutations := by
      simpa [hPdef, Finset.mem_mk, Multiset.mem_coe] using hl
    obtain ⟨s, hs, hse⟩ := hreach l (List.mem_permutations.mp hmem)
    exact Finset.mem_image.mpr
      ⟨s, Finset.mem_range.mpr (Nat.lt_succ_of_le hs), hse⟩
  have hcardP : P.card = 5040 := by
    have h1 : P.card = (List.range 7).permutations.length := by
      simp [hPdef, Finset.card_mk]
    rw [h1, List.length_permutations, List.length_range]
    decide
  have hle : P.card ≤ (Finset.range (seedHi + 1)).card :=
    le_trans (Finset.card_le_card hsub) Finset.card_image_le
  rw [hcardP, Finset.card_range] at hle
  simp [seedHi] at hle

/-- C3: the claim says the permutation applied per pair is uniform over all
N! orderings of 0..N-1; uniformity requires every ordering to be reachable
from the seed range {0..1000} of random.randint(0, 1000), but for N = 7 there
are 7! = 5040 > 1001 orderings, so no sampler whatsoever satisfies the
reachability the claim demands. -/
theorem C3_counterexample :
    ¬ ∃ sample : Nat → List Nat → List Nat, reachesAllOrderings sample 7 :=
  fun ⟨sample, h⟩ => not_reachesAllOrderings_seven sample h

/-- C3 (amended): the permutation applied to each processed pair is selected
by a fresh integer seed drawn from {0, ..., seedHi} = {0, ..., 1000}; at most
1001 distinct orderings per pair are therefore reachable, and for tables with
at least 7 rows the draw cannot be uniform over all N! orderings: whatever
the seeded sampler is, some ordering of 0..6 is produced by no in-range
seed. -/
theorem C3_seed_bounded_nonuniform :
    ∀ sample : Nat → List Nat → List Nat,
      ∃ l, l.Perm (List.range 7) ∧
        ∀ s ≤ seedHi, sample s (List.range 7) ≠ l := by
  intro sample
  by_contra h
  push_neg at h
  exact not_reachesAllOrderings_seven sample h

/-- The values yaml.safe_load can return for the configuration file:
scalars, sequences and string-keyed mappings (the key type that occurs in
this tool's configs). -/
inductive Yaml where
  | str : String → Yaml
  | int : Int → Yaml
  | bool : Bool → Yaml
  | null : Yaml
  | seq : List Yaml → Yaml
  | map : List (String × Yaml) → Yaml

/-- Key lookup in a parsed mapping (embeds `"columns_to_swap" in config` and
`config["columns_to_swap"]`; python dict keys are unique, so first match). -/
def lookupKey (kvs : List (String × Yaml)) (k : String) : Option Yaml :=
  match kvs with
  | [] => none
  | (m, v) :: rest => if m = k then some v else lookupKey rest k

/-- The per-element check of validate_config (main.py line 47): the element
is a list and has exactly two entries. The entries themselves are not
inspected. -/
def isPairShape (y : Yaml) : Bool :=
  match y with
  | Yaml.seq l => l.length == 2
  | _ => false

/-- validate_config (main.py lines 22-51): the config is a dict, contains the
key columns_to_swap, its value is a list, and every element is a 2-element
list. -/
def validate_config (config : Yaml) : Bool :=
  match config with
  | Yaml.map kvs =>
    match lookupKey kvs "columns_to_swap" with
    | some (Yaml.seq pairs) => pairs.all isPairShape
    | _ => false
  | _ => false

/-- Follows the spec's words, for comparison with validate_config (this
definition is deliberately NOT a translation of the source): a mapping
containing key columns_to_swap whose value is a sequence of 2-element
sequences of column-name strings. -/
def specConfigShape (config : Yaml) : Bool :=
  match config with
  | Yaml.map kvs =>
    match lookupKey kvs "columns_to_swap" with
    | some (Yaml.seq pairs) =>
      pairs.all fun p =>
        match p with
        | Yaml.seq l =>
          l.length == 2 &&
            l.all fun e =>
              match e with
              | Yaml.str _ => true
              | _ => false
        | _ => false
    | _ => false
  | _ => false

/-- A config that validate_config accepts although its pair elements are
integers, not column-name strings. -/
def cfgBad : Yaml :=
  Yaml.map [("columns_to_swap", Yaml.seq [Yaml.seq [Yaml.int 1, Yaml.int 2]])]

/-- C9: the claim says validation succeeds only when pair elements are
column-name strings, but validate_config never inspects the elements: the
concrete config whose single pair is [1, 2] (integers) passes validation
while the spec's shape predicate rejects it. -/
theorem C9_counterexample :
    validate_config cfgBad = true ∧ specConfigShape cfgBad = false := by decide

/-- Per-element shape check as a proposition. -/
theorem isPairShape_iff (p : Yaml) :
    isPairShape p = true ↔ ∃ l, p = Yaml.seq l ∧ l.length = 2 := by
  cases p <;> simp [isPairShape]

/-- C9 (amended): configuration validation succeeds if and only if the config
deserializes to a mapping containing key columns_to_swap whose value is a
sequence of 2-element sequences; the types of the two elements inside each
pair are not checked (non-string elements also pass). -/
theorem C9_validate_iff (config : Yaml) :
    validate_config config = true ↔
      ∃ kvs pairs, config = Yaml.map kvs ∧
        lookupKey kvs "columns_to_swap" = some (Yaml.seq pairs) ∧
        ∀ p ∈ pairs, ∃ l, p = Yaml.seq l ∧ l.length = 2 := by
  cases config with
  | map kvs =>
    cases hl : lookupKey kvs "columns_to_swap" with
    | none => simp [validate_config, hl]
    | some v =>
      cases v <;>
        simp [validate_config, hl, List.all_eq_true, isPairShape_iff]
  | str s => simp [validate_config]
  | int n => simp [validate_config]
  | bool b => simp [validate_config]
  | null => simp [validate_config]
  | seq l => simp [validate_config]

/-- Result of reading the data file with the loader selected by its
extension: a parsed table, a missing file (FileNotFoundError), or a file with
nothing to parse (pandas EmptyDataError, caught at main.py line 131). -/
inductive DataResult (α : Type) where
  | ok : Table α → DataResult α
  | notFound : DataResult α
  | emptyData : DataResult α

/-- The fatal conditions main logs before returning without output. -/
inductive MainError where
  | configMissing
  | configInvalid
  | unsupportedFormat
  | dataMissing
  | dataEmpty
deriving DecidableEq

/-- Observable outcome of a run of main: either the transformed table was
written to the output file, or an error was logged and no output written. -/
inductive MainOutcome (α : Type) where
  | wrote : Table α → MainOutcome α
  | failed : MainError → MainOutcome α

/-- The extension test of main.py lines 111-117: the lowercased extension of
the data file selects the CSV or the Excel loader; anything else is the
unsupported-format error. -/
def supportedExt (ext : String) : Bool :=
  ext.toLower == ".csv" || ext.toLower == ".xlsx" || ext.toLower == ".xls"

/-- The pair list main passes to swap_data: config["columns_to_swap"], with
each 2-element sequence of strings read as a column-name pair. Pairs with
non-string elements are dropped here; in the source they reach swap_data
unchanged but can never match a string-named column of the DataFrame, so the
loop skips them and they produce no change to the written table. -/
def extractPairs (config : Yaml) : List (String × String) :=
  match config with
  | Yaml.map kvs =>
    match lookupKey kvs "columns_to_swap" with
    | some (Yaml.seq pairs) =>
      pairs.filterMap fun p =>
        match p with
        | Yaml.seq [Yaml.str a, Yaml.str b] => some (a, b)
        | _ => none
    | _ => []
  | _ => []

/-- main (main.py lines 85-137), over an abstract environment: `cfg` is the
parsed config file (none when opening or parsing it failed), `ext` the data
file's extension, `load` the result of the selected loader, `shuffle`/`seeds`
the randomness consumed by swap_data. Faithful to the source's control flow:
config is loaded and validated first, then the extension is checked, then the
data file is read, then swap_data runs, and only then is the output file
written; every error branch returns with no output written. -/
def main (cfg : Option Yaml) (ext : String) (load : DataResult α)
    (shuffle : Nat → List α → List α) (seeds : List Nat) : MainOutcome α :=
  match cfg with
  | none => MainOutcome.failed MainError.configMissing
  | some config =>
    if validate_config config then
      if supportedExt ext then
        match load with
        | DataResult.notFound => MainOutcome.failed MainError.dataMissing
        | DataResult.emptyData => MainOutcome.failed MainError.dataEmpty
        | DataResult.ok df =>
          MainOutcome.wrote (swap_data shuffle df seeds (extractPairs config))
      else MainOutcome.failed MainError.unsupportedFormat
    else MainOutcome.failed MainError.configInvalid

/-- C8: an output table is written if and only if the config file was loaded
and validated, the data file extension is supported, and the data file loaded
as a table (not missing, not empty); and what is written is exactly the fully
transformed table. Contrapositively, on every fatal condition — missing or
invalid config, unsupported extension, missing or empty data — main returns
one of the failed outcomes, which carry the logged error and write nothing. -/
theorem C8_output_iff_success (cfg : Option Yaml) (ext : String)
    (load : DataResult α) (shuffle : Nat → List α → List α)
    (seeds : List Nat) (out : Table α) :
    main cfg ext load shuffle seeds = MainOutcome.wrote out ↔
      ∃ config df, cfg = some config ∧ validate_config config = true ∧
        supportedExt ext = true ∧ load = DataResult.ok df ∧
        out = swap_data shuffle df seeds (extractPairs config) := by
  cases cfg with
  | none => simp [main]
  | some config =>
    by_cases hv : validate_config config = true
    · by_cases he : supportedExt ext = true
      · cases load with
        | ok df =>
          constructor
          · intro h
            have h2 : MainOutcome.wrote (α := α)
                (swap_data shuffle df seeds (extractPairs config)) =
                  MainOutcome.wrote out := by
              rw [← h]
              simp [main, hv, he]
            injection h2 with h2
            exact ⟨config, df, rfl, hv, he, rfl, h2.symm⟩
          · rintro ⟨c, d, hc, hvc, hec, hd, hout⟩
            injection hc with hc
            injection hd with hd
            subst hc
            subst hd
            subst hout
            simp [main, hv, he]
        | notFound => simp [main, hv, he]
        | emptyData => simp [main, hv, he]
      · cases load <;> simp [main, hv, he]
    · cases load <;> simp [main, hv]

end DataAttributeSwapper
